import Mathlib

/-!
Verification of the payment-instruction parser
(`src/services/payment-processor/parse-instruction.js`).

The JavaScript module is shallowly embedded below.  JS runtime values that
flow through the evaluation (account balances, the response `amount` field)
are modelled by `JSVal`; JS strings are Lean `String`s, manipulated through
their character lists so that every operation is executable and matches the
JS string primitives used by the source (`split(' ')`, `trim`, `slice`,
`includes`, `toLowerCase`, `toUpperCase`).
-/

namespace Pay

/-- Model of a JavaScript runtime value as it can appear in an account
balance or in the response `amount` field: `null`, `NaN`, a number, or a
string.  JS numbers are modelled as integers (every numeric literal the
claims exercise is integral; IEEE-754 fractional behaviour is out of
scope). -/
inductive JSVal where
  | vnull
  | vnan
  | vnum (n : Int)
  | vstr (s : String)
deriving Repr, DecidableEq

/-- Whitespace recognised by the model of JS `String.prototype.trim`. -/
def jsIsWS (c : Char) : Bool :=
  c = ' ' || c = '\t' || c = '\n' || c = '\r'

/-- Model of JS `String.prototype.trim` on a character list: strip leading
and trailing whitespace. -/
def trimChars (l : List Char) : List Char :=
  ((l.dropWhile jsIsWS).reverse.dropWhile jsIsWS).reverse

/-- Model of JS `split(' ')`: cut the character list at every single space
character, keeping empty pieces (the source filters them out afterwards). -/
def splitOnSpace (l : List Char) : List (List Char) :=
  match l with
  | [] => [[]]
  | c :: rest =>
    match splitOnSpace rest with
    | [] => [[]]
    | t :: ts => if c = ' ' then [] :: t :: ts else (c :: t) :: ts

/-- Model of JS `trim` at the `String` level. -/
def jsTrim (s : String) : String :=
  (trimChars s.data).asString

/-- Model of JS `toLowerCase` (ASCII range, which covers every keyword and
token the source compares). -/
def jsToLowerCase (s : String) : String :=
  (s.data.map Char.toLower).asString

/-- Model of JS `toUpperCase` (ASCII range). -/
def jsToUpperCase (s : String) : String :=
  (s.data.map Char.toUpper).asString

/-- Model of JS `String.prototype.slice(a, b)` (with `0 ≤ a ≤ b`). -/
def sliceStr (s : String) (a b : Nat) : String :=
  ((s.data.drop a).take (b - a)).asString

/-- Numeric value of a list of decimal digit characters, most significant
first (the value JS `Number` gives a digit-only string). -/
def strNat (l : List Char) : Nat :=
  l.foldl (fun n c => 10 * n + (c.toNat - 48)) 0

/-- Model of JS `Number(s)` restricted to the forms that reach it in this
module: an optional sign followed by decimal digits converts to that
integer, the empty string converts to `0`, and every other string is
modelled as `NaN` (`none`).  (JS additionally accepts fractional, hex and
exponent forms; strings with a decimal point are rejected by the source
before `Number` is applied, and the remaining exotic forms also flow
through the source's comparisons the same way `NaN` does.) -/
def jsNumber (s : String) : Option Int :=
  match s.data with
  | [] => some 0
  | '-' :: rest =>
    if rest ≠ [] ∧ rest.all Char.isDigit then some (-(strNat rest : Int)) else none
  | '+' :: rest =>
    if rest ≠ [] ∧ rest.all Char.isDigit then some ((strNat rest : Int)) else none
  | l => if l.all Char.isDigit then some ((strNat l : Int)) else none

/-- Model of JS `ToString` on a `JSVal` (used by string concatenation). -/
def jsToString : JSVal → String
  | .vnull => "null"
  | .vnan => "NaN"
  | .vnum n => toString n
  | .vstr s => s

/-- Model of JS `ToNumber` on a `JSVal` (`none` is `NaN`). -/
def jsToNumber : JSVal → Option Int
  | .vnull => some 0
  | .vnan => none
  | .vnum n => some n
  | .vstr s => jsNumber s

/-- Model of JS `v -= s` where `s` is a string: both operands are coerced
to numbers; any `NaN` operand makes the result `NaN`. -/
def jsSub (v : JSVal) (s : String) : JSVal :=
  match jsToNumber v, jsNumber s with
  | some a, some b => .vnum (a - b)
  | _, _ => .vnan

/-- Model of JS `v += s` where `s` is a string: `+` with a string operand
performs string concatenation after converting the other operand to a
string. -/
def jsAddStr (v : JSVal) (s : String) : JSVal :=
  .vstr (jsToString v ++ s)

/-- Model of the JS `<` comparison between a runtime value and an already
converted number; a `NaN` on either side yields `false`. -/
def jsLtNum (v : JSVal) (x : Option Int) : Bool :=
  match jsToNumber v, x with
  | some a, some b => decide (a < b)
  | _, _ => false

/-- Model of JS `n <= 0` where `n : Option Int` is a converted number
(`none` = `NaN`, for which the comparison is `false`). -/
def jsLe0 (x : Option Int) : Bool :=
  match x with
  | some n => decide (n ≤ 0)
  | none => false

/-- JS truthiness of a nullable string: `null` and `""` are falsy. -/
def truthy (o : Option String) : Bool :=
  match o with
  | some s => s ≠ ""
  | none => false

/-- JS `Number(s)` packaged as a runtime value (`NaN` when unparsable). -/
def jsNumberVal (s : String) : JSVal :=
  match jsNumber s with
  | some n => .vnum n
  | none => .vnan

/-- Character test used by the source's digit loop: JS `c < '0' || c > '9'`
negated. -/
def jsIsDigit (c : Char) : Bool :=
  !(c < '0' || c > '9')

/-- The per-month day counts used by `isValidDateYYYYMMDD`, index 0 unused,
mirroring the source's `daysInMonth` array. -/
def daysInMonth : List Nat :=
  [0, 31, 28, 31, 30, 31, 30, 31, 31, 30, 31, 30, 31]

/-- Leap-year rule from the source: divisible by 4 and not by 100, or
divisible by 400. -/
def isLeapYear (year : Nat) : Bool :=
  (year % 4 = 0 && year % 100 ≠ 0) || year % 400 = 0

/-- Embedding of `isValidDateYYYYMMDD` from the source on a character list:
requires non-emptiness, exact length 10, dashes at indices 4 and 7, digits
everywhere else (checked on the concatenation of the three slices, as the
source does), year in [1000, 9999], month in [1, 12], and the day bounded
by the month length with February stretched to 29 in leap years. -/
def isValidDateChars (l : List Char) : Bool :=
  if l.length = 0 then false
  else if l.length ≠ 10 then false
  else if ¬ (l.get? 4 = some '-' ∧ l.get? 7 = some '-') then false
  else
    let yearStr := l.take 4
    let monthStr := (l.drop 5).take 2
    let dayStr := (l.drop 8).take 2
    let combined := yearStr ++ monthStr ++ dayStr
    if combined.any (fun c => c < '0' || c > '9') then false
    else
      let year := strNat yearStr
      let month := strNat monthStr
      let day := strNat dayStr
      if year < 1000 ∨ year > 9999 then false
      else if month < 1 ∨ month > 12 then false
      else if isLeapYear year ∧ month = 2 then
        decide (1 ≤ day ∧ day ≤ 29)
      else
        decide (1 ≤ day ∧ day ≤ (daysInMonth.get? month).getD 0)

/-- Embedding of `isValidDateYYYYMMDD` at the `String` level. -/
def isValidDateYYYYMMDD (dateStr : String) : Bool :=
  isValidDateChars dateStr.data

/-- Length of a month in a given year under the standard leap-year rule
(spec wording: "day within that month's length, with February having 29
days if and only if the year is a leap year"). -/
def monthLength (year month : Nat) : Nat :=
  if month = 2 then (if isLeapYear year then 29 else 28)
  else ([31, 28, 31, 30, 31, 30, 31, 31, 30, 31, 30, 31].get? (month - 1)).getD 0

/-- Modelled from the spec: the date predicate as §4.3 words it — a
10-character string of shape `YYYY-MM-DD` with dashes at positions 4 and 7,
every other character a digit, year in [1000, 9999], month in [1, 12], and
day within that month's length. Used only to compare against the source's
`isValidDateYYYYMMDD`. -/
def dateSpecChars (l : List Char) : Bool :=
  decide (l.length = 10) &&
  (l.get? 4 == some '-') && (l.get? 7 == some '-') &&
  (l.get? 0).any jsIsDigit && (l.get? 1).any jsIsDigit &&
  (l.get? 2).any jsIsDigit && (l.get? 3).any jsIsDigit &&
  (l.get? 5).any jsIsDigit && (l.get? 6).any jsIsDigit &&
  (l.get? 8).any jsIsDigit && (l.get? 9).any jsIsDigit &&
  (let year := strNat (l.take 4)
   let month := strNat ((l.drop 5).take 2)
   let day := strNat ((l.drop 8).take 2)
   decide (1000 ≤ year) && decide (year ≤ 9999) &&
   decide (1 ≤ month) && decide (month ≤ 12) &&
   decide (1 ≤ day) && decide (day ≤ monthLength year month))

/-- Modelled from the spec at the `String` level (see `dateSpecChars`). -/
def dateSpecCheck (s : String) : Bool :=
  dateSpecChars s.data

/-- An account as supplied by the (schema-validated) caller and mutated in
place by the settlement engine.  The balance is a `JSVal` so that the
post-mutation states the JS engine produces (numbers, `NaN`, concatenated
strings) are representable; the input schema guarantees callers supply
numbers. -/
structure Account where
  id : String
  balance : JSVal
  currency : String
deriving Repr, DecidableEq

/-- Model of `accountsMap.get`: the map is built by inserting the accounts
in order with `accountsMap.set(a.id, a)`, so a later account with the same
id overwrites an earlier one — lookup finds the LAST matching entry.
A `null` key finds nothing (the map's keys are the account id strings). -/
def lastFind (l : List Account) (k : String) : Option Account :=
  match l with
  | [] => none
  | a :: rest =>
    match lastFind rest k with
    | some r => some r
    | none => if a.id == k then some a else none

/-- Model of `accountsMap.get(key)` for a nullable key. -/
def mapGet (accounts : List Account) (key : Option String) : Option Account :=
  match key with
  | none => none
  | some k => lastFind accounts k

/-- In-place balance mutation: apply `f` to the balance of the account
object retrieved from the map, i.e. the LAST list entry whose id is `k`
(all aliases of that object — every later read of the list — see the new
balance). -/
def updateBal (l : List Account) (k : String) (f : JSVal → JSVal) : List Account :=
  match l with
  | [] => []
  | a :: rest =>
    if rest.any (fun b => b.id == k) then a :: updateBal rest k f
    else if a.id == k then { a with balance := f a.balance } :: rest
    else a :: rest

/-- The transient result of `parseInstructionData` (all fields nullable
strings). -/
structure ParsedInfo where
  type : Option String
  amount : Option String
  currency : Option String
  debit_account : Option String
  credit_account : Option String
  execute_by : Option String
deriving Repr, DecidableEq

/-- The all-null `ParsedInfo` the field mapper starts from. -/
def nullInfo : ParsedInfo :=
  ⟨none, none, none, none, none, none⟩

/-- Embedding of `parseInstructionData`. Tokenize on single spaces, trim
each token, drop empties; lower-case the first token and match it against
`SUPPORTED_TYPE`.  The positional schema (`PARSER_CONFIG`) reads `type`
at 0, `amount` at 1, `currency` at 2 (upper-cased), the two account ids at
5 and 10 (swapped between the credit and debit schemas) and `execute_by`
at 12; indices beyond the token list yield `null`.

The JS membership test `first in SUPPORTED_TYPE` also matches properties
inherited from `Object.prototype`; since `first` is lower-cased, the two
inherited names it can match are `"constructor"` and `"__proto__"`, for
which `PARSER_CONFIG[first].fields` is `undefined` and
`Object.entries(undefined)` throws a `TypeError` — modelled as `.error`. -/
def parseInstructionData (instruction : String) : Except String ParsedInfo :=
  let words := ((splitOnSpace instruction.data).map
      (fun w => (trimChars w).asString)).filter (fun w => w ≠ "")
  match words.head? with
  | none => .ok nullInfo
  | some w0 =>
    let first := jsToLowerCase w0
    if first = "credit" then
      .ok { type := words.get? 0
            amount := words.get? 1
            currency := (words.get? 2).map jsToUpperCase
            credit_account := words.get? 5
            debit_account := words.get? 10
            execute_by := words.get? 12 }
    else if first = "debit" then
      .ok { type := words.get? 0
            amount := words.get? 1
            currency := (words.get? 2).map jsToUpperCase
            debit_account := words.get? 5
            credit_account := words.get? 10
            execute_by := words.get? 12 }
    else if first = "constructor" ∨ first = "__proto__" then
      .error "TypeError"
    else
      .ok nullInfo

/-- Message catalog. Modelled from the spec: the `@app/messages` catalog
(`PaymentMessages`) is an external collaborator not under `src/`; the spec
says it supplies one human-readable reason string per code, so each
constant is an opaque distinct string. -/
def MALFORMED_INSTRUCTION : String := "MSG_MALFORMED_INSTRUCTION"

/-- Modelled from the spec: catalog text for code AM01. -/
def INVALID_AMOUNT : String := "MSG_INVALID_AMOUNT"

/-- Modelled from the spec: catalog text for code CU02. -/
def UNSUPPORTED_CURRENCY : String := "MSG_UNSUPPORTED_CURRENCY"

/-- Modelled from the spec: catalog text for code AC04. -/
def INVALID_ACCOUNT_ID : String := "MSG_INVALID_ACCOUNT_ID"

/-- Modelled from the spec: catalog text for code AC03. -/
def ACCOUNT_NOT_FOUND : String := "MSG_ACCOUNT_NOT_FOUND"

/-- Modelled from the spec: catalog text for code AC02. -/
def SAME_ACCOUNT_ERROR : String := "MSG_SAME_ACCOUNT_ERROR"

/-- Modelled from the spec: catalog text for code CU01. -/
def CURRENCY_MISMATCH : String := "MSG_CURRENCY_MISMATCH"

/-- Modelled from the spec: catalog text for code SY03. -/
def MISSING_KEYWORD : String := "MSG_MISSING_KEYWORD"

/-- Modelled from the spec: catalog text for code AC01. -/
def INSUFFICIENT_FUNDS : String := "MSG_INSUFFICIENT_FUNDS"

/-- Modelled from the spec: catalog text for code DT01. -/
def INVALID_DATE_FORMAT : String := "MSG_INVALID_DATE_FORMAT"

/-- Modelled from the spec: the generic failure text of the initial
response object. -/
def FAILED_GENERIC : String := "MSG_FAILED_GENERIC"

/-- Modelled from the spec: catalog text for the pending outcome. -/
def TRANSACTION_PENDING : String := "MSG_TRANSACTION_PENDING"

/-- Modelled from the spec: catalog text for the successful outcome. -/
def TRANSACTION_SUCCESSFUL : String := "MSG_TRANSACTION_SUCCESSFUL"

/-- A business validation failure: a stable code plus catalog message. -/
structure VError where
  code : String
  message : String
deriving Repr, DecidableEq

/-- Embedding of `isValidAccountId`: non-null, non-empty, and every
character drawn from the allowed letters/digits/`-`/`.`/`@` set. -/
def isValidAccountId (id : Option String) : Bool :=
  match id with
  | none => false
  | some s =>
    s ≠ "" &&
    s.data.all (fun c =>
      ("abcdefghijklmnopqrstuvwxyzABCDEFGHIJKLMNOPQRSTUVWXYZ0123456789-.@".data).contains c)

/-- The JS check `Number.isNaN(parsed.amount)` where `parsed.amount` is a
string or `null`: `Number.isNaN` does not coerce its argument, so it is
`false` for every non-number value — the check never fires. -/
def jsNumberIsNaNOnString (_amount : Option String) : Bool :=
  false

/-- Membership in `SUPPORTED_CURRENCIES` via the JS `in` operator, which
also matches the inherited `Object.prototype` property names; the argument
is already lower-cased, so the two inherited names that can match are
`"constructor"` and `"__proto__"`. -/
def inSupportedCurrencies (s : String) : Bool :=
  s = "usd" || s = "ngn" || s = "gbp" || s = "ghs" ||
  s = "constructor" || s = "__proto__"

/-- Embedding of `validateParsedFields`: the ordered, short-circuiting
validation chain.  Returns the first failing check's `(code, message)`
pair, or `none` when every check passes. -/
def validateParsedFields (parsed : ParsedInfo) (accounts : List Account) : Option VError :=
  if parsed.type = none then
    some ⟨"PR01", MALFORMED_INSTRUCTION⟩
  else
    match parsed.amount with
    | none => some ⟨"AM01", INVALID_AMOUNT⟩
    | some a =>
      if a = "" || jsNumberIsNaNOnString (some a) then
        some ⟨"AM01", INVALID_AMOUNT⟩
      else if a.data.contains '.' then
        some ⟨"AM01", INVALID_AMOUNT⟩
      else
        let amount := jsNumber a
        if jsLe0 amount then
          some ⟨"AM01", INVALID_AMOUNT⟩
        else if ¬ (truthy parsed.currency) then
          some ⟨"CU02", UNSUPPORTED_CURRENCY⟩
        else if ¬ inSupportedCurrencies (jsToLowerCase ((parsed.currency).getD "")) then
          some ⟨"CU02", UNSUPPORTED_CURRENCY⟩
        else if ¬ isValidAccountId parsed.debit_account ∧ ¬ isValidAccountId parsed.credit_account then
          some ⟨"AC04", INVALID_ACCOUNT_ID⟩
        else
          match mapGet accounts parsed.debit_account, mapGet accounts parsed.credit_account with
          | some debitA, some creditA =>
            if parsed.debit_account = parsed.credit_account then
              some ⟨"AC02", SAME_ACCOUNT_ERROR⟩
            else if jsToUpperCase debitA.currency ≠ jsToUpperCase creditA.currency then
              some ⟨"CU01", CURRENCY_MISMATCH⟩
            else
              let typeNormalized := parsed.type.map jsToLowerCase
              if typeNormalized ≠ some "credit" ∧ typeNormalized ≠ some "debit" then
                some ⟨"SY03", MISSING_KEYWORD⟩
              else if parsed.type = some "DEBIT" ∧ jsLtNum debitA.balance amount then
                some ⟨"AC01", INSUFFICIENT_FUNDS⟩
              else
                match parsed.execute_by with
                | some d =>
                  if d ≠ "" ∧ ¬ isValidDateYYYYMMDD d then
                    some ⟨"DT01", INVALID_DATE_FORMAT⟩
                  else none
                | none => none
          | _, _ => some ⟨"AC03", ACCOUNT_NOT_FOUND⟩

/-- A per-account snapshot of the response's `accounts` sub-list. -/
structure ResAccount where
  id : String
  balance : JSVal
  balance_before : JSVal
  currency : String
deriving Repr, DecidableEq

/-- The outward-facing response record. -/
structure Response where
  type : Option String
  amount : JSVal
  currency : Option String
  debit_account : Option String
  credit_account : Option String
  execute_by : Option String
  status : String
  status_reason : String
  status_code : String
  accounts : List ResAccount
deriving Repr, DecidableEq

/-- The initial `response` object of `parseInstruction` before any branch
runs. -/
def initialResponse : Response :=
  { type := none
    amount := .vnull
    currency := none
    debit_account := none
    credit_account := none
    execute_by := none
    status := "failed"
    status_reason := FAILED_GENERIC
    status_code := "PR01"
    accounts := [] }

/-- Order-preserving model of `Date.UTC(year, month − 1, day)` applied to
the slices of a `YYYY-MM-DD` string: for valid calendar dates, comparing
`year * 10000 + (month − 1) * 100 + day` agrees with comparing the epoch
milliseconds `Date.UTC` returns, because both are strictly increasing in
the lexicographic (year, month, day) order. -/
def dateCodeOfStr (s : String) : Int :=
  ((jsNumber (sliceStr s 0 4)).getD 0) * 10000 +
    ((jsNumber (sliceStr s 5 7)).getD 0 - 1) * 100 +
    (jsNumber (sliceStr s 8 10)).getD 0

/-- The settlement engine's deferral decision: `execute_by` is present
(truthy) and its UTC calendar date is strictly later than the current UTC
date (`todayCode`, the same encoding of `Date.UTC` of today). -/
def deferred (execute_by : Option String) (todayCode : Int) : Bool :=
  match execute_by with
  | some d => d ≠ "" && decide (dateCodeOfStr d > todayCode)
  | none => false

/-- The two in-place balance mutations, in the order the source performs
them: for a type token equal to `"DEBIT"` the debit account is debited
first (`-=`, numeric) and the credit account then credited (`+=`, which
with a string operand is concatenation); for every other type token the
same two updates run in the opposite order. -/
def applySettlement (accounts : List Account) (isDebitType : Bool)
    (da ca amountStr : String) : List Account :=
  if isDebitType then
    updateBal (updateBal accounts da (fun b => jsSub b amountStr)) ca
      (fun b => jsAddStr b amountStr)
  else
    updateBal (updateBal accounts ca (fun b => jsAddStr b amountStr)) da
      (fun b => jsSub b amountStr)

/-- The outcome of one evaluation: the response plus the caller's account
list as it stands after the call (reflecting any in-place mutation). -/
structure EvalResult where
  response : Response
  accounts : List Account
deriving Repr, DecidableEq

/-- Embedding of `parseInstruction` (the whole evaluation, after the
boundary schema validation): trim the instruction, run the field mapper,
short-circuit to SY03 when no type keyword matched, otherwise run the
validation chain, and on success run the settlement engine and response
assembler.  `todayCode` is the `dateCodeOfStr`-encoding of the current UTC
date (`Date.UTC(now.getUTCFullYear(), now.getUTCMonth(), now.getUTCDate())`).
A thrown `TypeError` (see `parseInstructionData`) propagates as `.error`.
The final wildcard arm is unreachable: the validation chain only returns
`none` after both map lookups succeed (in JS it would be a `TypeError` on
reading `balance` of `undefined`). -/
def parseInstruction (todayCode : Int) (accounts : List Account)
    (instruction : String) : Except String EvalResult :=
  match parseInstructionData (jsTrim instruction) with
  | .error e => .error e
  | .ok parsed =>
    if !(truthy parsed.type) then
      .ok ⟨{ initialResponse with
             status := "failed"
             status_reason := MALFORMED_INSTRUCTION
             status_code := "SY03" }, accounts⟩
    else
      match validateParsedFields parsed accounts with
      | some verr =>
        .ok ⟨{ initialResponse with
               status := "failed"
               status_reason := verr.message
               status_code := verr.code }, accounts⟩
      | none =>
        match parsed.debit_account, parsed.credit_account,
            mapGet accounts parsed.debit_account, mapGet accounts parsed.credit_account with
        | some da, some ca, some debitA, some creditA =>
          let debitBefore := debitA.balance
          let creditBefore := creditA.balance
          let amountStr := parsed.amount.getD ""
          let pend := deferred parsed.execute_by todayCode
          let accounts2 :=
            if pend then accounts
            else applySettlement accounts (parsed.type = some "DEBIT") da ca amountStr
          let finalAccounts :=
            (accounts2.filter (fun a => a.id == da || a.id == ca)).map
              (fun a =>
                { id := a.id
                  balance := a.balance
                  balance_before := if a.id == da then debitBefore else creditBefore
                  currency := jsToUpperCase a.currency })
          .ok ⟨{ initialResponse with
                 type := parsed.type
                 amount := if truthy parsed.amount then jsNumberVal amountStr else .vnull
                 currency := parsed.currency
                 debit_account := parsed.debit_account
                 credit_account := parsed.credit_account
                 execute_by := parsed.execute_by
                 status := if pend then "pending" else "successful"
                 status_code := if pend then "AP02" else "AP00"
                 status_reason := if pend then TRANSACTION_PENDING else TRANSACTION_SUCCESSFUL
                 accounts := finalAccounts }, accounts2⟩
        | _, _, _, _ => .error "TypeError"

theorem lastFind_isSome_iff_any (l : List Account) (k : String) :
    (lastFind l k).isSome = l.any (fun b => b.id == k) := by
  induction l with
  | nil => rfl
  | cons a rest ih =>
    simp only [lastFind, List.any_cons]
    cases h : lastFind rest k with
    | some r => simp [← ih, h]
    | none =>
      simp only [← ih, h, Option.isSome_none, Bool.or_false]
      by_cases hid : a.id == k <;> simp [hid]

theorem lastFind_updateBal_self (l : List Account) (k : String) (f : JSVal → JSVal) :
    lastFind (updateBal l k f) k =
      (lastFind l k).map (fun a => { a with balance := f a.balance }) := by
  induction l with
  | nil => rfl
  | cons a rest ih =>
    simp only [updateBal]
    by_cases hany : rest.any (fun b => b.id == k)
    · have hsome : (lastFind rest k).isSome = true := by
        rw [lastFind_isSome_iff_any]; exact hany
      obtain ⟨r, hr⟩ := Option.isSome_iff_exists.mp hsome
      simp only [hany, if_true, lastFind, ih, hr, Option.map_some']
    · have hnone : lastFind rest k = none := by
        have := lastFind_isSome_iff_any rest k
        rw [eq_false_of_ne_true hany] at this
        exact Option.not_isSome_iff_eq_none.mp (by simp [this])
      simp only [hany, if_false]
      by_cases hid : a.id == k
      · simp [lastFind, hnone, hid]
      · simp [lastFind, hnone, hid]

theorem lastFind_updateBal_other (l : List Account) (k k' : String)
    (f : JSVal → JSVal) (h : k' ≠ k) :
    lastFind (updateBal l k f) k' = lastFind l k' := by
  induction l with
  | nil => rfl
  | cons a rest ih =>
    simp only [updateBal]
    by_cases hany : rest.any (fun b => b.id == k)
    · simp [hany, lastFind, ih]
    · simp only [hany, if_false]
      by_cases hid : a.id == k
      · have hid' : a.id = k := by simpa using hid
        simp only [hid, if_true, lastFind]
        have : (({ a with balance := f a.balance } : Account).id == k') = (a.id == k') := rfl
        rw [this]
        have hak' : (a.id == k') = false := by
          simp [hid', (by simpa using h.symm : ¬ k = k')]
        simp [hak']
      · simp [hid, lastFind]

/-- Any response reaching status "failed" was produced by one of the two
short-circuit branches, which leave the caller's accounts untouched and
keep the initial response except for the reason and code. -/
theorem eval_failed_shape (todayCode : Int) (accounts : List Account)
    (instruction : String) (r : EvalResult)
    (he : parseInstruction todayCode accounts instruction = .ok r)
    (hs : r.response.status = "failed") :
    ∃ m c, r = ⟨{ initialResponse with
                  status := "failed", status_reason := m, status_code := c },
                accounts⟩ := by
  unfold parseInstruction at he
  cases hpd : parseInstructionData (jsTrim instruction) with
  | error e => rw [hpd] at he; exact absurd he (by simp)
  | ok p =>
    rw [hpd] at he
    by_cases ht : truthy p.type
    · simp only [ht, Bool.not_true, Bool.false_eq_true, if_false] at he
      cases hv : validateParsedFields p accounts with
      | some verr =>
        rw [hv] at he
        refine ⟨verr.message, verr.code, ?_⟩
        exact (Except.ok.inj he).symm
      | none =>
        rw [hv] at he
        cases hda : p.debit_account with
        | none => rw [hda] at he; exact absurd he (by simp)
        | some da =>
          cases hca : p.credit_account with
          | none => rw [hda, hca] at he; exact absurd he (by simp)
          | some ca =>
            cases hd : mapGet accounts (some da) with
            | none => rw [hda, hca, hd] at he; exact absurd he (by simp)
            | some dA =>
              cases hc : mapGet accounts (some ca) with
              | none => rw [hda, hca, hd, hc] at he; exact absurd he (by simp)
              | some cA =>
                rw [hda, hca, hd, hc] at he
                have hr := (Except.ok.inj he).symm
                exfalso
                have : r.response.status =
                    (if deferred p.execute_by todayCode then "pending"
                     else "successful") := by
                  rw [hr]
                rw [hs] at this
                by_cases hp : deferred p.execute_by todayCode <;> simp [hp] at this
    · have ht' : truthy p.type = false := by simpa using ht
      simp only [ht', Bool.not_false, if_true] at he
      exact ⟨MALFORMED_INSTRUCTION, "SY03", (Except.ok.inj he).symm⟩

/-- The shape of the evaluation once the field mapper matched a keyword and
the validation chain passed: the settlement engine decides pending versus
immediate execution from `deferred`, mutates or not accordingly, and the
response assembler builds the final record. -/
theorem parseInstruction_valid_eq (todayCode : Int) (accounts : List Account)
    (instruction : String) (p : ParsedInfo) (da ca : String) (dA cA : Account)
    (hp : parseInstructionData (jsTrim instruction) = .ok p)
    (ht : truthy p.type = true)
    (hv : validateParsedFields p accounts = none)
    (hda : p.debit_account = some da) (hca : p.credit_account = some ca)
    (hd : mapGet accounts (some da) = some dA)
    (hc : mapGet accounts (some ca) = some cA) :
    parseInstruction todayCode accounts instruction =
      (let pend := deferred p.execute_by todayCode
       let accounts2 :=
         if pend then accounts
         else applySettlement accounts (p.type = some "DEBIT") da ca (p.amount.getD "")
       Except.ok ⟨{ initialResponse with
             type := p.type
             amount := if truthy p.amount then jsNumberVal (p.amount.getD "") else .vnull
             currency := p.currency
             debit_account := some da
             credit_account := some ca
             execute_by := p.execute_by
             status := if pend then "pending" else "successful"
             status_code := if pend then "AP02" else "AP00"
             status_reason := if pend then TRANSACTION_PENDING else TRANSACTION_SUCCESSFUL
             accounts :=
               (accounts2.filter (fun a => a.id == da || a.id == ca)).map
                 (fun a =>
                   { id := a.id
                     balance := a.balance
                     balance_before := if a.id == da then dA.balance else cA.balance
                     currency := jsToUpperCase a.currency }) }, accounts2⟩) := by
  unfold parseInstruction
  rw [hp]
  simp only [ht, Bool.not_true, Bool.false_eq_true, if_false, hv, hda, hca, hd, hc]

/-- C1: the claim says that for a well-formed debit instruction with
sufficient funds and matching currencies, a successful evaluation leaves
the credit account at its prior balance plus the amount.  The code instead
executes `credit.balance += parsed.amount` with `parsed.amount` still a
string, so JS `+` concatenates: with prior balance 250 and amount 500 the
credit account ends at the string "250500", not the number 750 (the debit
side, using `-=`, is coerced numerically and is correct). -/
theorem c1_credit_balance_concatenation_bug :
    parseInstruction 20261012
      [⟨"A1", .vnum 1000, "USD"⟩, ⟨"A2", .vnum 250, "USD"⟩]
      "DEBIT 500 USD x x A1 x x x x A2" =
    .ok ⟨{ initialResponse with
           type := some "DEBIT"
           amount := .vnum 500
           currency := some "USD"
           debit_account := some "A1"
           credit_account := some "A2"
           execute_by := none
           status := "successful"
           status_code := "AP00"
           status_reason := TRANSACTION_SUCCESSFUL
           accounts :=
             [⟨"A1", .vnum 500, .vnum 1000, "USD"⟩,
              ⟨"A2", .vstr "250500", .vnum 250, "USD"⟩] },
         [⟨"A1", .vnum 500, "USD"⟩, ⟨"A2", .vstr "250500", "USD"⟩]⟩ ∧
    JSVal.vstr "250500" ≠ JSVal.vnum (250 + 500) := by
  exact ⟨rfl, by decide⟩

/-- C2: the claim says a non-numeric amount token is rejected with status
"failed" and code "AM01".  The code's guard is `Number.isNaN(parsed.amount)`
applied to the raw string, which is always `false` (no coercion), and
`Number("abc") <= 0` is also `false` because the comparison with `NaN` is
`false`; so the amount "abc" passes the whole validation chain and the
instruction executes "successful"/"AP00", driving the debit balance to
`NaN`. -/
theorem c2_nonnumeric_amount_not_rejected :
    (parseInstruction 20261012
      [⟨"A1", .vnum 1000, "USD"⟩, ⟨"A2", .vnum 250, "USD"⟩]
      "debit abc usd x x A1 x x x x A2").map
        (fun r => (r.response.status, r.response.status_code,
          (r.accounts.map Account.balance))) =
    .ok ("successful", "AP00", [JSVal.vnan, JSVal.vstr "250abc"]) ∧
    ("successful", "AP00") ≠ ("failed", "AM01") := by
  exact ⟨rfl, by decide⟩

/-- C4: the claim says an insufficient-funds debit fails with "AC01"
regardless of the letter case of the type token.  The code's guard is
`parsed.type === SUPPORTED_TYPE.debit`, comparing the verbatim token with
the literal "DEBIT", so a lower-case "debit" instruction skips the check
(the normalized `isDebit` computed two lines earlier is never used): with
balance 100 and amount 500 the evaluation succeeds and overdraws the
account to −400 instead of failing with "AC01". -/
theorem c4_lowercase_debit_insufficient_funds_bug :
    (parseInstruction 20261012
      [⟨"A1", .vnum 100, "USD"⟩, ⟨"A2", .vnum 250, "USD"⟩]
      "debit 500 usd x x A1 x x x x A2").map
        (fun r => (r.response.status, r.response.status_code,
          (r.accounts.map Account.balance))) =
    .ok ("successful", "AP00", [JSVal.vnum (-400), JSVal.vstr "250500"]) ∧
    ("successful", "AP00") ≠ ("failed", "AC01") := by
  exact ⟨rfl, by decide⟩

/-- C3 (counterexample): for the instruction "foo", whose first token
matches no supported type keyword, the whole evaluation returns
status_code "SY03" — not "PR01" as the claim states.  (The "PR01" branch
of the validation chain is unreachable: `parseInstruction` pre-checks
`!parsed.type` itself and emits "SY03".) -/
theorem c3_pr01_counterexample :
    (parseInstruction 0 [] "foo").map
      (fun r => (r.response.status, r.response.status_code, r.response.status_reason)) =
      .ok ("failed", "SY03", MALFORMED_INSTRUCTION) ∧
    "SY03" ≠ "PR01" := by
  exact ⟨rfl, by decide⟩

/-- C3 (amended): for every instruction whose field mapping yields a null
type (first token missing or matching no supported keyword), the
evaluation returns status "failed" with status_code "SY03" and the
malformed-instruction message, leaving the accounts untouched. -/
theorem c3_null_type_sy03 (todayCode : Int) (accounts : List Account)
    (instruction : String) (p : ParsedInfo)
    (hp : parseInstructionData (jsTrim instruction) = .ok p)
    (ht : p.type = none) :
    parseInstruction todayCode accounts instruction =
      .ok ⟨{ initialResponse with
             status := "failed"
             status_reason := MALFORMED_INSTRUCTION
             status_code := "SY03" }, accounts⟩ := by
  unfold parseInstruction
  rw [hp]
  have h' : truthy p.type = false := by rw [ht]; rfl
  simp [h']

/-- C3 witness: the amended theorem applied to the concrete instruction
"foo". -/
theorem c3_null_type_sy03_witness :
    parseInstruction 0 [] "foo" =
      .ok ⟨{ initialResponse with
             status := "failed"
             status_reason := MALFORMED_INSTRUCTION
             status_code := "SY03" }, []⟩ :=
  c3_null_type_sy03 0 [] "foo" nullInfo rfl rfl

/-- C6: every evaluation that returns status "failed" leaves the caller's
account list exactly as supplied (no balance mutation), and re-evaluating
the same instruction against that unmutated snapshot at the same current
date returns the identical response. -/
theorem c6_failed_no_mutation_idempotent (todayCode : Int)
    (accounts : List Account) (instruction : String) (r : EvalResult)
    (he : parseInstruction todayCode accounts instruction = .ok r)
    (hs : r.response.status = "failed") :
    r.accounts = accounts ∧
    parseInstruction todayCode r.accounts instruction = .ok r := by
  obtain ⟨m, c, hr⟩ := eval_failed_shape todayCode accounts instruction r he hs
  have hacc : r.accounts = accounts := by rw [hr]
  exact ⟨hacc, by rw [hacc]; exact he⟩

/-- C6 witness: the theorem applied to the failing instruction "x" against
a one-account snapshot. -/
theorem c6_failed_no_mutation_idempotent_witness :
    (EvalResult.accounts
        ⟨{ initialResponse with
           status := "failed"
           status_reason := MALFORMED_INSTRUCTION
           status_code := "SY03" }, [⟨"A1", .vnum 5, "USD"⟩]⟩) =
      [⟨"A1", .vnum 5, "USD"⟩] ∧
    parseInstruction 0 [⟨"A1", .vnum 5, "USD"⟩] "x" =
      .ok ⟨{ initialResponse with
             status := "failed"
             status_reason := MALFORMED_INSTRUCTION
             status_code := "SY03" }, [⟨"A1", .vnum 5, "USD"⟩]⟩ :=
  c6_failed_no_mutation_idempotent 0 [⟨"A1", .vnum 5, "USD"⟩] "x" _ rfl rfl

/-- C10: every evaluation that returns status "failed" carries the initial
response's data fields — type, amount, currency, debit_account,
credit_account and execute_by all null and an empty accounts list —
whatever partial parse preceded the failure. -/
theorem c10_failed_response_nulls (todayCode : Int)
    (accounts : List Account) (instruction : String) (r : EvalResult)
    (he : parseInstruction todayCode accounts instruction = .ok r)
    (hs : r.response.status = "failed") :
    r.response.type = none ∧ r.response.amount = JSVal.vnull ∧
    r.response.currency = none ∧ r.response.debit_account = none ∧
    r.response.credit_account = none ∧ r.response.execute_by = none ∧
    r.response.accounts = [] := by
  obtain ⟨m, c, hr⟩ := eval_failed_shape todayCode accounts instruction r he hs
  rw [hr]
  exact ⟨rfl, rfl, rfl, rfl, rfl, rfl, rfl⟩

/-- C10 witness: the theorem applied to the instruction "debit 0 usd"
(which fails the amount check with every field before `amount` parsed). -/
theorem c10_failed_response_nulls_witness :
    (EvalResult.response
        ⟨{ initialResponse with
           status := "failed"
           status_reason := INVALID_AMOUNT
           status_code := "AM01" }, ([] : List Account)⟩).type = none ∧
    (EvalResult.response
        ⟨{ initialResponse with
           status := "failed"
           status_reason := INVALID_AMOUNT
           status_code := "AM01" }, ([] : List Account)⟩).amount = JSVal.vnull ∧
    (EvalResult.response
        ⟨{ initialResponse with
           status := "failed"
           status_reason := INVALID_AMOUNT
           status_code := "AM01" }, ([] : List Account)⟩).currency = none ∧
    (EvalResult.response
        ⟨{ initialResponse with
           status := "failed"
           status_reason := INVALID_AMOUNT
           status_code := "AM01" }, ([] : List Account)⟩).debit_account = none ∧
    (EvalResult.response
        ⟨{ initialResponse with
           status := "failed"
           status_reason := INVALID_AMOUNT
           status_code := "AM01" }, ([] : List Account)⟩).credit_account = none ∧
    (EvalResult.response
        ⟨{ initialResponse with
           status := "failed"
           status_reason := INVALID_AMOUNT
           status_code := "AM01" }, ([] : List Account)⟩).execute_by = none ∧
    (EvalResult.response
        ⟨{ initialResponse with
           status := "failed"
           status_reason := INVALID_AMOUNT
           status_code := "AM01" }, ([] : List Account)⟩).accounts = [] :=
  c10_failed_response_nulls 0 [] "debit 0 usd" _ rfl rfl

theorem lastFind_applySettlement_debit (accounts : List Account)
    (isD : Bool) (da ca s : String) (hne : da ≠ ca) :
    lastFind (applySettlement accounts isD da ca s) da =
      (lastFind accounts da).map (fun a => { a with balance := jsSub a.balance s }) := by
  cases isD with
  | true =>
    simp only [applySettlement, if_true]
    rw [lastFind_updateBal_other _ ca da _ hne, lastFind_updateBal_self]
  | false =>
    simp only [applySettlement, Bool.false_eq_true, if_false]
    rw [lastFind_updateBal_self, lastFind_updateBal_other _ ca da _ hne]

theorem lastFind_applySettlement_credit (accounts : List Account)
    (isD : Bool) (da ca s : String) (hne : da ≠ ca) :
    lastFind (applySettlement accounts isD da ca s) ca =
      (lastFind accounts ca).map (fun a => { a with balance := jsAddStr a.balance s }) := by
  cases isD with
  | true =>
    simp only [applySettlement, if_true]
    rw [lastFind_updateBal_self, lastFind_updateBal_other _ da ca _ hne.symm]
  | false =>
    simp only [applySettlement, Bool.false_eq_true, if_false]
    rw [lastFind_updateBal_other _ da ca _ hne.symm, lastFind_updateBal_self]

theorem updateBal_eq_map (l : List Account) (k : String) (f : JSVal → JSVal)
    (hnd : (l.map Account.id).Nodup) :
    updateBal l k f =
      l.map (fun a => if a.id == k then { a with balance := f a.balance } else a) := by
  induction l with
  | nil => rfl
  | cons a rest ih =>
    simp only [List.map_cons, List.nodup_cons] at hnd
    obtain ⟨hna, hnr⟩ := hnd
    simp only [updateBal, List.map_cons]
    by_cases hany : rest.any (fun b => b.id == k) = true
    · have hk : k ∈ rest.map Account.id := by
        simp only [List.any_eq_true] at hany
        obtain ⟨b, hb, hbk⟩ := hany
        have hbk' : b.id = k := by simpa using hbk
        exact hbk' ▸ List.mem_map_of_mem Account.id hb
      have hak : (a.id == k) = false := by
        by_cases h : a.id = k
        · exact absurd (h ▸ hk) hna
        · simp [h]
      simp [hany, hak, ih hnr]
    · have hnone : ∀ b ∈ rest, (b.id == k) = false := by
        intro b hb
        by_cases h : b.id = k
        · exact absurd (by simp [List.any_eq_true]; exact ⟨b, hb, h⟩) hany
        · simp [h]
      have hrest : rest.map
          (fun b => if b.id == k then { b with balance := f b.balance } else b) = rest := by
        have hcg : ∀ b ∈ rest,
            (if b.id == k then { b with balance := f b.balance } else b) = id b := by
          intro b hb
          simp [hnone b hb]
        rw [List.map_congr_left hcg, List.map_id]
      rw [if_neg hany]
      by_cases hak : (a.id == k) = true
      · rw [if_pos hak, if_pos hak, hrest]
      · rw [if_neg hak, if_neg hak, hrest]

theorem applySettlement_eq_map (l : List Account) (isD : Bool) (da ca s : String)
    (hne : da ≠ ca) (hnd : (l.map Account.id).Nodup) :
    applySettlement l isD da ca s =
      l.map (fun a =>
        if a.id == da then { a with balance := jsSub a.balance s }
        else if a.id == ca then { a with balance := jsAddStr a.balance s }
        else a) := by
  have hid : ∀ (k : String) (g : JSVal → JSVal),
      (Account.id ∘ fun a => if a.id == k then { a with balance := g a.balance } else a) =
        Account.id := by
    intro k g
    funext a
    by_cases h : a.id = k <;> simp [h]
  have hnd2 : ∀ (k : String) (g : JSVal → JSVal),
      ((l.map (fun a => if a.id == k then { a with balance := g a.balance } else a)).map
        Account.id).Nodup := by
    intro k g
    rw [List.map_map, hid k g]
    exact hnd
  cases isD with
  | true =>
    simp only [applySettlement, if_true]
    rw [updateBal_eq_map l da (fun b => jsSub b s) hnd,
      updateBal_eq_map
        (l.map (fun a => if a.id == da then { a with balance := jsSub a.balance s } else a))
        ca (fun b => jsAddStr b s) (hnd2 da (fun b => jsSub b s)),
      List.map_map]
    apply List.map_congr_left
    intro a _
    by_cases h1 : (a.id == da) = true
    · have h1' : a.id = da := by simpa using h1
      have h2 : (da == ca) = false := by simp [hne]
      simp [Function.comp, h1, h1', h2]
    · by_cases h2 : (a.id == ca) = true <;> simp [Function.comp, h1, h2]
  | false =>
    simp only [applySettlement, Bool.false_eq_true, if_false]
    rw [updateBal_eq_map l ca (fun b => jsAddStr b s) hnd,
      updateBal_eq_map
        (l.map (fun a => if a.id == ca then { a with balance := jsAddStr a.balance s } else a))
        da (fun b => jsSub b s) (hnd2 ca (fun b => jsAddStr b s)),
      List.map_map]
    apply List.map_congr_left
    intro a _
    by_cases h2 : (a.id == ca) = true
    · have h2' : a.id = ca := by simpa using h2
      have h1 : (ca == da) = false := by simp [Ne.symm hne]
      have h1'' : (a.id == da) = false := by simp [h2', Ne.symm hne]
      simp [Function.comp, h2, h2', h1, h1'']
    · by_cases h1 : (a.id == da) = true <;> simp [Function.comp, h1, h2]

theorem filter_map_eq_filterMap {α β : Type} (l : List α) (q : α → Bool) (g : α → β) :
    (l.filter q).map g = l.filterMap (fun a => if q a then some (g a) else none) := by
  induction l with
  | nil => rfl
  | cons a rest ih =>
    by_cases h : q a <;> simp [List.filter_cons, List.filterMap_cons, h, ih]

theorem lastFind_mem (l : List Account) (k : String) (x : Account)
    (h : lastFind l k = some x) : x ∈ l ∧ x.id = k := by
  induction l with
  | nil => cases h
  | cons a rest ih =>
    simp only [lastFind] at h
    cases hr : lastFind rest k with
    | some r =>
      rw [hr] at h
      obtain rfl : r = x := by simpa using h
      obtain ⟨hm, hk⟩ := ih hr
      exact ⟨List.mem_cons_of_mem a hm, hk⟩
    | none =>
      rw [hr] at h
      by_cases hak : (a.id == k) = true
      · rw [if_pos hak] at h
        obtain rfl : a = x := by simpa using h
        exact ⟨List.mem_cons_self a rest, by simpa using hak⟩
      · rw [if_neg (by simpa using hak)] at h
        cases h

theorem lastFind_eq_of_mem_id (l : List Account) (k : String) (x a : Account)
    (hnd : (l.map Account.id).Nodup)
    (h : lastFind l k = some x) (ha : a ∈ l) (hak : a.id = k) : a = x := by
  obtain ⟨hx, hxk⟩ := lastFind_mem l k x h
  exact List.inj_on_of_nodup_map hnd ha hx (by rw [hak, hxk])

theorem countP_or_disjoint (l : List Account) (da ca : String) (hne : da ≠ ca) :
    l.countP (fun a => a.id == da || a.id == ca) =
      l.countP (fun a => a.id == da) + l.countP (fun a => a.id == ca) := by
  induction l with
  | nil => rfl
  | cons a rest ih =>
    by_cases h1 : (a.id == da) = true
    · have h2 : (a.id == ca) = false := by
        have h1' : a.id = da := by simpa using h1
        simp [h1', hne]
      simp only [List.countP_cons, h1, h2, ih]
      simp
      try omega
    · by_cases h2 : (a.id == ca) = true
      · simp only [List.countP_cons, h1, h2, ih]
        simp
        try omega
      · simp only [List.countP_cons, h1, h2, ih]
        simp
        try omega

theorem countP_id_eq_one (l : List Account) (k : String)
    (hnd : (l.map Account.id).Nodup) (hk : k ∈ l.map Account.id) :
    l.countP (fun a => a.id == k) = 1 := by
  have h1 : (l.map Account.id).count k = 1 := List.count_eq_one_of_mem hnd hk
  have h2 : (l.map Account.id).count k = (l.map Account.id).countP (fun s => s == k) := rfl
  rw [h2, List.countP_map] at h1
  exact h1

theorem settlement_accounts_eq (l : List Account) (da ca s : String)
    (dA cA : Account) (pend isD : Bool)
    (hne : da ≠ ca) (hnd : (l.map Account.id).Nodup)
    (hd : lastFind l da = some dA) (hc : lastFind l ca = some cA) :
    (((if pend then l else applySettlement l isD da ca s).filter
        (fun a => a.id == da || a.id == ca)).map
      (fun a =>
        ({ id := a.id
           balance := a.balance
           balance_before := if a.id == da then dA.balance else cA.balance
           currency := jsToUpperCase a.currency } : ResAccount))) =
      l.filterMap (fun a =>
        if a.id == da then
          some { id := a.id
                 balance := if pend then dA.balance else jsSub dA.balance s
                 balance_before := dA.balance
                 currency := jsToUpperCase a.currency }
        else if a.id == ca then
          some { id := a.id
                 balance := if pend then cA.balance else jsAddStr cA.balance s
                 balance_before := cA.balance
                 currency := jsToUpperCase a.currency }
        else none) := by
  cases pend with
  | true =>
    simp only [if_true]
    rw [filter_map_eq_filterMap]
    apply List.filterMap_congr
    intro a ha
    by_cases h1 : (a.id == da) = true
    · have h1' : a.id = da := by simpa using h1
      have haeq : a = dA := lastFind_eq_of_mem_id l da dA a hnd hd ha h1'
      subst haeq
      simp [h1]
    · by_cases h2 : (a.id == ca) = true
      · have h2' : a.id = ca := by simpa using h2
        have haeq : a = cA := lastFind_eq_of_mem_id l ca cA a hnd hc ha h2'
        subst haeq
        simp [h1, h2]
      · simp [h1, h2]
  | false =>
    simp only [Bool.false_eq_true, if_false]
    rw [applySettlement_eq_map l isD da ca s hne hnd, List.filter_map, List.map_map]
    have hpred : ((fun (a : Account) => a.id == da || a.id == ca) ∘
        (fun (a : Account) =>
          if a.id == da then { a with balance := jsSub a.balance s }
          else if a.id == ca then { a with balance := jsAddStr a.balance s }
          else a)) = (fun (a : Account) => a.id == da || a.id == ca) := by
      funext a
      by_cases h1 : (a.id == da) = true
      · simp [Function.comp, h1]
      · by_cases h2 : (a.id == ca) = true <;> simp [Function.comp, h1, h2]
    rw [hpred, filter_map_eq_filterMap]
    apply List.filterMap_congr
    intro a ha
    by_cases h1 : (a.id == da) = true
    · have h1' : a.id = da := by simpa using h1
      have haeq : a = dA := lastFind_eq_of_mem_id l da dA a hnd hd ha h1'
      subst haeq
      simp [Function.comp, h1]
    · by_cases h2 : (a.id == ca) = true
      · have h2' : a.id = ca := by simpa using h2
        have haeq : a = cA := lastFind_eq_of_mem_id l ca cA a hnd hc ha h2'
        subst haeq
        simp [Function.comp, h1, h2]
      · simp [Function.comp, h1, h2]

/-- C7: for every instruction that passes the whole validation chain —
the field mapper matched a keyword (`ht`), the chain returned no error
(`hv`), which entails that both account lookups succeed (`hd`, `hc`) and
the two ids differ (`hne`) — the settlement engine's dichotomy holds:
if `execute_by` is present and strictly later than the current UTC date
(`deferred … = true`) the result is "pending"/"AP02" with no balance
mutation; otherwise the result is "successful"/"AP00" and the two
balances are updated in place, the debit account by the numeric `-=` and
the credit account by the string-concatenating `+=`. -/
theorem c7_settlement_dichotomy (todayCode : Int) (accounts : List Account)
    (instruction : String) (p : ParsedInfo) (da ca : String) (dA cA : Account)
    (hp : parseInstructionData (jsTrim instruction) = .ok p)
    (ht : truthy p.type = true)
    (hv : validateParsedFields p accounts = none)
    (hda : p.debit_account = some da) (hca : p.credit_account = some ca)
    (hd : mapGet accounts (some da) = some dA)
    (hc : mapGet accounts (some ca) = some cA)
    (hne : da ≠ ca) :
    (deferred p.execute_by todayCode = true →
      ∃ r, parseInstruction todayCode accounts instruction = .ok r ∧
        r.response.status = "pending" ∧ r.response.status_code = "AP02" ∧
        r.response.status_reason = TRANSACTION_PENDING ∧
        r.accounts = accounts) ∧
    (deferred p.execute_by todayCode = false →
      ∃ r, parseInstruction todayCode accounts instruction = .ok r ∧
        r.response.status = "successful" ∧ r.response.status_code = "AP00" ∧
        r.response.status_reason = TRANSACTION_SUCCESSFUL ∧
        r.accounts =
          applySettlement accounts (p.type = some "DEBIT") da ca (p.amount.getD "") ∧
        mapGet r.accounts (some da) =
          some { dA with balance := jsSub dA.balance (p.amount.getD "") } ∧
        mapGet r.accounts (some ca) =
          some { cA with balance := jsAddStr cA.balance (p.amount.getD "") }) := by
  rw [parseInstruction_valid_eq todayCode accounts instruction p da ca dA cA
      hp ht hv hda hca hd hc]
  constructor
  · intro hpend
    simp only [hpend, if_true]
    exact ⟨_, rfl, rfl, rfl, rfl, rfl⟩
  · intro hpend
    simp only [hpend, Bool.false_eq_true, if_false]
    refine ⟨_, rfl, rfl, rfl, rfl, rfl, ?_, ?_⟩
    · show lastFind (applySettlement accounts _ da ca _) da = _
      rw [lastFind_applySettlement_debit accounts _ da ca _ hne]
      have hd' : lastFind accounts da = some dA := hd
      rw [hd', Option.map_some']
    · show lastFind (applySettlement accounts _ da ca _) ca = _
      rw [lastFind_applySettlement_credit accounts _ da ca _ hne]
      have hc' : lastFind accounts ca = some cA := hc
      rw [hc', Option.map_some']

/-- C7 witness: the dichotomy applied to a concrete deferred debit
instruction (every hypothesis discharged by evaluation). -/
theorem c7_settlement_dichotomy_witness :
    (deferred (some "2099-01-01") 20260912 = true →
      ∃ r, parseInstruction 20260912
          [⟨"ACC1", .vnum 1000, "USD"⟩, ⟨"ACC2", .vnum 0, "USD"⟩]
          "debit 500 usd x x ACC1 x x x x ACC2 x 2099-01-01" = .ok r ∧
        r.response.status = "pending" ∧ r.response.status_code = "AP02" ∧
        r.response.status_reason = TRANSACTION_PENDING ∧
        r.accounts = [⟨"ACC1", .vnum 1000, "USD"⟩, ⟨"ACC2", .vnum 0, "USD"⟩]) ∧
    (deferred (some "2099-01-01") 20260912 = false →
      ∃ r, parseInstruction 20260912
          [⟨"ACC1", .vnum 1000, "USD"⟩, ⟨"ACC2", .vnum 0, "USD"⟩]
          "debit 500 usd x x ACC1 x x x x ACC2 x 2099-01-01" = .ok r ∧
        r.response.status = "successful" ∧ r.response.status_code = "AP00" ∧
        r.response.status_reason = TRANSACTION_SUCCESSFUL ∧
        r.accounts =
          applySettlement [⟨"ACC1", .vnum 1000, "USD"⟩, ⟨"ACC2", .vnum 0, "USD"⟩]
            ((⟨some "debit", some "500", some "USD", some "ACC1", some "ACC2",
                some "2099-01-01"⟩ : ParsedInfo).type = some "DEBIT")
            "ACC1" "ACC2" "500" ∧
        mapGet r.accounts (some "ACC1") =
          some ⟨"ACC1", jsSub (JSVal.vnum 1000) "500", "USD"⟩ ∧
        mapGet r.accounts (some "ACC2") =
          some ⟨"ACC2", jsAddStr (JSVal.vnum 0) "500", "USD"⟩) :=
  c7_settlement_dichotomy 20260912
    [⟨"ACC1", .vnum 1000, "USD"⟩, ⟨"ACC2", .vnum 0, "USD"⟩]
    "debit 500 usd x x ACC1 x x x x ACC2 x 2099-01-01"
    ⟨some "debit", some "500", some "USD", some "ACC1", some "ACC2",
      some "2099-01-01"⟩
    "ACC1" "ACC2" ⟨"ACC1", .vnum 1000, "USD"⟩ ⟨"ACC2", .vnum 0, "USD"⟩
    rfl rfl rfl rfl rfl rfl rfl (by decide)

/-- C8 (counterexample): evaluating the spec's literal scenario string
"debit 500 usd x x x ACC1 x x x x ACC2 x 2099-01-01" against
ACC1(1000, USD) and ACC2(0, USD) yields status "failed" with code "AC03",
not "pending"/"AP02": the string carries three placeholder tokens before
ACC1, so the debit account is read from token index 5, which is "x", and
the lookup fails.  (Balances are indeed unchanged.) -/
theorem c8_scenario_counterexample :
    (parseInstruction 20260912
      [⟨"ACC1", .vnum 1000, "USD"⟩, ⟨"ACC2", .vnum 0, "USD"⟩]
      "debit 500 usd x x x ACC1 x x x x ACC2 x 2099-01-01").map
        (fun r => (r.response.status, r.response.status_code,
          r.accounts.map Account.balance)) =
      .ok ("failed", "AC03", [JSVal.vnum 1000, JSVal.vnum 0]) ∧
    ("failed", "AC03") ≠ ("pending", "AP02") := by
  exact ⟨rfl, by decide⟩

/-- C8 (amended): with the placeholder count fixed so that the account
tokens sit at the schema's indices 5, 10 and the date at 12 — instruction
"debit 500 usd x x ACC1 x x x x ACC2 x 2099-01-01" — the evaluation
against ACC1(1000, USD), ACC2(0, USD) on any current date before
2099-01-01 is "pending" with code "AP02" and both balances unchanged. -/
theorem c8_scenario_amended (todayCode : Int)
    (h : todayCode < dateCodeOfStr "2099-01-01") :
    parseInstruction todayCode
      [⟨"ACC1", .vnum 1000, "USD"⟩, ⟨"ACC2", .vnum 0, "USD"⟩]
      "debit 500 usd x x ACC1 x x x x ACC2 x 2099-01-01" =
      .ok ⟨{ initialResponse with
             type := some "debit"
             amount := .vnum 500
             currency := some "USD"
             debit_account := some "ACC1"
             credit_account := some "ACC2"
             execute_by := some "2099-01-01"
             status := "pending"
             status_code := "AP02"
             status_reason := TRANSACTION_PENDING
             accounts :=
               [⟨"ACC1", .vnum 1000, .vnum 1000, "USD"⟩,
                ⟨"ACC2", .vnum 0, .vnum 0, "USD"⟩] },
           [⟨"ACC1", .vnum 1000, "USD"⟩, ⟨"ACC2", .vnum 0, "USD"⟩]⟩ := by
  have hb : deferred (some "2099-01-01") todayCode = true := by
    simp only [deferred]
    simp [h]
  rw [parseInstruction_valid_eq todayCode
      [⟨"ACC1", .vnum 1000, "USD"⟩, ⟨"ACC2", .vnum 0, "USD"⟩]
      "debit 500 usd x x ACC1 x x x x ACC2 x 2099-01-01"
      ⟨some "debit", some "500", some "USD", some "ACC1", some "ACC2",
        some "2099-01-01"⟩
      "ACC1" "ACC2" ⟨"ACC1", .vnum 1000, "USD"⟩ ⟨"ACC2", .vnum 0, "USD"⟩
      rfl rfl rfl rfl rfl rfl rfl]
  simp only [hb, if_true]
  rfl

/-- C8 witness: the amended theorem applied at the concrete current date
2026-09-12 (encoded 20260912). -/
theorem c8_scenario_amended_witness :
    parseInstruction 20260912
      [⟨"ACC1", .vnum 1000, "USD"⟩, ⟨"ACC2", .vnum 0, "USD"⟩]
      "debit 500 usd x x ACC1 x x x x ACC2 x 2099-01-01" =
      .ok ⟨{ initialResponse with
             type := some "debit"
             amount := .vnum 500
             currency := some "USD"
             debit_account := some "ACC1"
             credit_account := some "ACC2"
             execute_by := some "2099-01-01"
             status := "pending"
             status_code := "AP02"
             status_reason := TRANSACTION_PENDING
             accounts :=
               [⟨"ACC1", .vnum 1000, .vnum 1000, "USD"⟩,
                ⟨"ACC2", .vnum 0, .vnum 0, "USD"⟩] },
           [⟨"ACC1", .vnum 1000, "USD"⟩, ⟨"ACC2", .vnum 0, "USD"⟩]⟩ :=
  c8_scenario_amended 20260912 (by decide)

/-- C9 (counterexample): the claim says a successful or pending response
contains the NORMALIZED type.  The code copies the verbatim token
(`type: parsed.type`): evaluating a "DeBiT" instruction succeeds and the
response's type field is "DeBiT", which is neither the normalized keyword
form "DEBIT" nor "debit". -/
theorem c9_type_not_normalized_counterexample :
    (parseInstruction 20260912
      [⟨"A1", .vnum 1000, "USD"⟩, ⟨"A2", .vnum 250, "USD"⟩]
      "DeBiT 500 usd x x A1 x x x x A2").map
        (fun r => (r.response.status, r.response.type)) =
      .ok ("successful", some "DeBiT") ∧
    some "DeBiT" ≠ some "DEBIT" ∧ some "DeBiT" ≠ some "debit" := by
  exact ⟨rfl, by decide, by decide⟩

/-- C9 (amended): for every successful or pending evaluation (the
validation chain passed; the supplied account ids are distinct), the
response carries the type token verbatim (as parsed, not normalized), the
upper-cased currency, the amount as a JS number (`Number(amount)`), the
original account identifiers, `execute_by` verbatim, and an accounts list
of exactly the two involved accounts in original input order, each with
id, upper-cased currency, `balance_before` (the pre-mutation balance) and
`balance` (the post-mutation balance, equal to `balance_before` when the
instruction is deferred). -/
theorem c9_response_shape_amended (todayCode : Int) (accounts : List Account)
    (instruction : String) (p : ParsedInfo) (da ca : String) (dA cA : Account)
    (hp : parseInstructionData (jsTrim instruction) = .ok p)
    (ht : truthy p.type = true)
    (hv : validateParsedFields p accounts = none)
    (hda : p.debit_account = some da) (hca : p.credit_account = some ca)
    (hd : mapGet accounts (some da) = some dA)
    (hc : mapGet accounts (some ca) = some cA)
    (hne : da ≠ ca)
    (hta : truthy p.amount = true)
    (hnd : (accounts.map Account.id).Nodup) :
    ∃ r, parseInstruction todayCode accounts instruction = .ok r ∧
      r.response.type = p.type ∧
      r.response.currency = p.currency ∧
      r.response.amount = jsNumberVal (p.amount.getD "") ∧
      r.response.debit_account = some da ∧
      r.response.credit_account = some ca ∧
      r.response.execute_by = p.execute_by ∧
      r.response.accounts =
        accounts.filterMap (fun a =>
          if a.id == da then
            some { id := a.id
                   balance :=
                     if deferred p.execute_by todayCode then dA.balance
                     else jsSub dA.balance (p.amount.getD "")
                   balance_before := dA.balance
                   currency := jsToUpperCase a.currency }
          else if a.id == ca then
            some { id := a.id
                   balance :=
                     if deferred p.execute_by todayCode then cA.balance
                     else jsAddStr cA.balance (p.amount.getD "")
                   balance_before := cA.balance
                   currency := jsToUpperCase a.currency }
          else none) ∧
      r.response.accounts.length = 2 := by
  rw [parseInstruction_valid_eq todayCode accounts instruction p da ca dA cA
      hp ht hv hda hca hd hc]
  have hacc := settlement_accounts_eq accounts da ca (p.amount.getD "") dA cA
    (deferred p.execute_by todayCode) (decide (p.type = some "DEBIT")) hne hnd hd hc
  have hmemda : da ∈ accounts.map Account.id := by
    obtain ⟨hm, hk⟩ := lastFind_mem accounts da dA hd
    exact hk ▸ List.mem_map_of_mem Account.id hm
  have hmemca : ca ∈ accounts.map Account.id := by
    obtain ⟨hm, hk⟩ := lastFind_mem accounts ca cA hc
    exact hk ▸ List.mem_map_of_mem Account.id hm
  have hlen : (accounts.filterMap (fun a =>
      if a.id == da then
        some ({ id := a.id
                balance :=
                  if deferred p.execute_by todayCode then dA.balance
                  else jsSub dA.balance (p.amount.getD "")
                balance_before := dA.balance
                currency := jsToUpperCase a.currency } : ResAccount)
      else if a.id == ca then
        some { id := a.id
               balance :=
                 if deferred p.execute_by todayCode then cA.balance
                 else jsAddStr cA.balance (p.amount.getD "")
               balance_before := cA.balance
               currency := jsToUpperCase a.currency }
      else none)).length = 2 := by
    rw [List.length_filterMap_eq_countP]
    have hc1 : accounts.countP (fun a =>
        (if a.id == da then
          some ({ id := a.id
                  balance :=
                    if deferred p.execute_by todayCode then dA.balance
                    else jsSub dA.balance (p.amount.getD "")
                  balance_before := dA.balance
                  currency := jsToUpperCase a.currency } : ResAccount)
        else if a.id == ca then
          some { id := a.id
                 balance :=
                   if deferred p.execute_by todayCode then cA.balance
                   else jsAddStr cA.balance (p.amount.getD "")
                 balance_before := cA.balance
                 currency := jsToUpperCase a.currency }
        else none).isSome) =
        accounts.countP (fun a => a.id == da || a.id == ca) := by
      apply List.countP_congr
      intro a ha
      by_cases h1 : (a.id == da) = true
      · simp [h1]
      · by_cases h2 : (a.id == ca) = true <;> simp [h1, h2]
    rw [hc1, countP_or_disjoint accounts da ca hne,
      countP_id_eq_one accounts da hnd hmemda,
      countP_id_eq_one accounts ca hnd hmemca]
  refine ⟨_, rfl, rfl, rfl, ?_, rfl, rfl, rfl, ?_, ?_⟩
  · simp [hta]
  · exact hacc
  · show (((if deferred p.execute_by todayCode then accounts
        else applySettlement accounts (decide (p.type = some "DEBIT")) da ca
          (p.amount.getD "")).filter (fun a => a.id == da || a.id == ca)).map _).length = 2
    rw [hacc]
    exact hlen

/-- C9 witness: the amended response-shape theorem applied to a concrete
successful "DEBIT" evaluation. -/
theorem c9_response_shape_amended_witness :
    ∃ r, parseInstruction 20260912
        [⟨"A1", .vnum 1000, "USD"⟩, ⟨"A2", .vnum 250, "USD"⟩]
        "DEBIT 500 USD x x A1 x x x x A2" = .ok r ∧
      r.response.type = some "DEBIT" ∧
      r.response.currency = some "USD" ∧
      r.response.amount = jsNumberVal ((some "500").getD "") ∧
      r.response.debit_account = some "A1" ∧
      r.response.credit_account = some "A2" ∧
      r.response.execute_by = (none : Option String) ∧
      r.response.accounts =
        ([⟨"A1", .vnum 1000, "USD"⟩, ⟨"A2", .vnum 250, "USD"⟩] : List Account).filterMap
          (fun a =>
            if a.id == "A1" then
              some { id := a.id
                     balance :=
                       if deferred none 20260912 then JSVal.vnum 1000
                       else jsSub (JSVal.vnum 1000) ((some "500").getD "")
                     balance_before := JSVal.vnum 1000
                     currency := jsToUpperCase a.currency }
            else if a.id == "A2" then
              some { id := a.id
                     balance :=
                       if deferred none 20260912 then JSVal.vnum 250
                       else jsAddStr (JSVal.vnum 250) ((some "500").getD "")
                     balance_before := JSVal.vnum 250
                     currency := jsToUpperCase a.currency }
            else none) ∧
      r.response.accounts.length = 2 :=
  c9_response_shape_amended 20260912
    [⟨"A1", .vnum 1000, "USD"⟩, ⟨"A2", .vnum 250, "USD"⟩]
    "DEBIT 500 USD x x A1 x x x x A2"
    ⟨some "DEBIT", some "500", some "USD", some "A1", some "A2", none⟩
    "A1" "A2" ⟨"A1", .vnum 1000, "USD"⟩ ⟨"A2", .vnum 250, "USD"⟩
    rfl rfl rfl rfl rfl rfl rfl (by decide) rfl (by decide)

theorem ymd_equiv (y m d : Nat) :
    (if y < 1000 ∨ y > 9999 then false
     else if m < 1 ∨ m > 12 then false
     else if isLeapYear y = true ∧ m = 2 then decide (1 ≤ d ∧ d ≤ 29)
     else decide (1 ≤ d ∧ d ≤ (daysInMonth.get? m).getD 0)) =
    (decide (1000 ≤ y) && decide (y ≤ 9999) && decide (1 ≤ m) && decide (m ≤ 12) &&
     decide (1 ≤ d) && decide (d ≤ monthLength y m)) := by
  by_cases hy : y < 1000 ∨ y > 9999
  · rcases hy with h | h
    · have h' : ¬ (1000 ≤ y) := by omega
      simp [h, h']
    · have h' : ¬ (y ≤ 9999) := by omega
      simp [h, h']
  · have hy1 : 1000 ≤ y := by omega
    have hy2 : y ≤ 9999 := by omega
    simp only [if_neg hy, hy1, hy2, decide_True, Bool.true_and]
    by_cases hm : m < 1 ∨ m > 12
    · rcases hm with h | h
      · have h' : ¬ (1 ≤ m) := by omega
        simp [h, h']
      · have h' : ¬ (m ≤ 12) := by omega
        simp [h, h']
    · have hm1 : 1 ≤ m := by omega
      have hm2 : m ≤ 12 := by omega
      simp only [if_neg hm, hm1, hm2, decide_True, Bool.true_and]
      interval_cases m
      · simp [monthLength, daysInMonth, Bool.decide_and]
      · by_cases hl : isLeapYear y = true <;>
          simp [monthLength, daysInMonth, hl, Bool.decide_and]
      · simp [monthLength, daysInMonth, Bool.decide_and]
      · simp [monthLength, daysInMonth, Bool.decide_and]
      · simp [monthLength, daysInMonth, Bool.decide_and]
      · simp [monthLength, daysInMonth, Bool.decide_and]
      · simp [monthLength, daysInMonth, Bool.decide_and]
      · simp [monthLength, daysInMonth, Bool.decide_and]
      · simp [monthLength, daysInMonth, Bool.decide_and]
      · simp [monthLength, daysInMonth, Bool.decide_and]
      · simp [monthLength, daysInMonth, Bool.decide_and]
      · simp [monthLength, daysInMonth, Bool.decide_and]

theorem isValidDateChars_eq_dateSpecChars (l : List Char) :
    isValidDateChars l = dateSpecChars l := by
  rcases l with _ | ⟨c0, _ | ⟨c1, _ | ⟨c2, _ | ⟨c3, _ | ⟨c4, _ | ⟨c5, _ | ⟨c6,
    _ | ⟨c7, _ | ⟨c8, _ | ⟨c9, rest⟩⟩⟩⟩⟩⟩⟩⟩⟩⟩
  · simp [isValidDateChars, dateSpecChars]
  · simp [isValidDateChars, dateSpecChars]
  · simp [isValidDateChars, dateSpecChars]
  · simp [isValidDateChars, dateSpecChars]
  · simp [isValidDateChars, dateSpecChars]
  · simp [isValidDateChars, dateSpecChars]
  · simp [isValidDateChars, dateSpecChars]
  · simp [isValidDateChars, dateSpecChars]
  · simp [isValidDateChars, dateSpecChars]
  · simp [isValidDateChars, dateSpecChars]
  cases rest with
  | cons c10 rest2 =>
    have hlen : (c0 :: c1 :: c2 :: c3 :: c4 :: c5 :: c6 :: c7 :: c8 :: c9 ::
        c10 :: rest2).length ≠ 10 := by
      simp
    simp [isValidDateChars, dateSpecChars, hlen]
  | nil =>
    simp only [isValidDateChars, dateSpecChars, List.length_cons, List.length_nil,
      List.get?, List.take, List.drop, List.append_nil, List.cons_append,
      List.nil_append, List.any_cons, List.any_nil, Option.any_some]
    by_cases h4 : c4 = '-'
    case neg =>
      have hs : (some c4 == some '-') = false := by simp [h4]
      simp [h4, hs]
    case pos =>
      subst h4
      by_cases h7 : c7 = '-'
      case neg =>
        have hs : (some c7 == some '-') = false := by simp [h7]
        simp [h7, hs]
      case pos =>
        subst h7
        simp only [if_neg (by simp : ¬ (10 = 0)), if_neg (by simp : ¬ (10 ≠ 10)),
          if_neg (by simp : ¬ ¬ ((some '-' : Option Char) = some '-' ∧
            (some '-' : Option Char) = some '-'))]
        by_cases h0 : (c0 < '0' ∨ c0 > '9')
        · have hsb : (decide (c0 < '0') || decide (c0 > '9')) = true := by
            rcases h0 with h | h <;> simp [h]
          simp [jsIsDigit, hsb]
        · have hg0 : (decide (c0 < '0') || decide (c0 > '9')) = false := by
            rcases not_or.mp h0 with ⟨ha, hb⟩
            simp [ha, hb]
          by_cases h1 : (c1 < '0' ∨ c1 > '9')
          · have hsb : (decide (c1 < '0') || decide (c1 > '9')) = true := by
              rcases h1 with h | h <;> simp [h]
            simp [jsIsDigit, hg0, hsb]
          · have hg1 : (decide (c1 < '0') || decide (c1 > '9')) = false := by
              rcases not_or.mp h1 with ⟨ha, hb⟩
              simp [ha, hb]
            by_cases h2 : (c2 < '0' ∨ c2 > '9')
            · have hsb : (decide (c2 < '0') || decide (c2 > '9')) = true := by
                rcases h2 with h | h <;> simp [h]
              simp [jsIsDigit, hg0, hg1, hsb]
            · have hg2 : (decide (c2 < '0') || decide (c2 > '9')) = false := by
                rcases not_or.mp h2 with ⟨ha, hb⟩
                simp [ha, hb]
              by_cases h3 : (c3 < '0' ∨ c3 > '9')
              · have hsb : (decide (c3 < '0') || decide (c3 > '9')) = true := by
                  rcases h3 with h | h <;> simp [h]
                simp [jsIsDigit, hg0, hg1, hg2, hsb]
              · have hg3 : (decide (c3 < '0') || decide (c3 > '9')) = false := by
                  rcases not_or.mp h3 with ⟨ha, hb⟩
                  simp [ha, hb]
                by_cases h5 : (c5 < '0' ∨ c5 > '9')
                · have hsb : (decide (c5 < '0') || decide (c5 > '9')) = true := by
                    rcases h5 with h | h <;> simp [h]
                  simp [jsIsDigit, hg0, hg1, hg2, hg3, hsb]
                · have hg5 : (decide (c5 < '0') || decide (c5 > '9')) = false := by
                    rcases not_or.mp h5 with ⟨ha, hb⟩
                    simp [ha, hb]
                  by_cases h6 : (c6 < '0' ∨ c6 > '9')
                  · have hsb : (decide (c6 < '0') || decide (c6 > '9')) = true := by
                      rcases h6 with h | h <;> simp [h]
                    simp [jsIsDigit, hg0, hg1, hg2, hg3, hg5, hsb]
                  · have hg6 : (decide (c6 < '0') || decide (c6 > '9')) = false := by
                      rcases not_or.mp h6 with ⟨ha, hb⟩
                      simp [ha, hb]
                    by_cases h8 : (c8 < '0' ∨ c8 > '9')
                    · have hsb : (decide (c8 < '0') || decide (c8 > '9')) = true := by
                        rcases h8 with h | h <;> simp [h]
                      simp [jsIsDigit, hg0, hg1, hg2, hg3, hg5, hg6, hsb]
                    · have hg8 : (decide (c8 < '0') || decide (c8 > '9')) = false := by
                        rcases not_or.mp h8 with ⟨ha, hb⟩
                        simp [ha, hb]
                      by_cases h9 : (c9 < '0' ∨ c9 > '9')
                      · have hsb : (decide (c9 < '0') || decide (c9 > '9')) = true := by
                          rcases h9 with h | h <;> simp [h]
                        simp [jsIsDigit, hg0, hg1, hg2, hg3, hg5, hg6, hg8, hsb]
                      · have hg9 : (decide (c9 < '0') || decide (c9 > '9')) = false := by
                          rcases not_or.mp h9 with ⟨ha, hb⟩
                          simp [ha, hb]
                        simp only [jsIsDigit, hg0, hg1, hg2, hg3, hg5, hg6, hg8, hg9,
                          Bool.or_false, Bool.false_or, Bool.not_false, Bool.true_and,
                          if_neg (by simp : ¬ (False : Prop))]
                        simp only [if_neg (by simp : ¬ ¬ (True ∧ True)),
                          if_neg (by simp : ¬ (false = true)), decide_True,
                          beq_self_eq_true, Bool.true_and]
                        exact ymd_equiv (strNat [c0, c1, c2, c3]) (strNat [c5, c6])
                          (strNat [c8, c9])

/-- C5: the source's date validator accepts exactly the strings described
by the spec — 10 characters, dashes at positions 4 and 7, every other
character a digit, year in [1000, 9999], month in [1, 12], day within that
month's length with February having 29 days iff the year is a leap year
(divisible by 4 and not by 100, or divisible by 400); in particular
"2024-02-29" is valid and "2023-02-29" is not. -/
theorem c5_date_validator_spec_equiv :
    (∀ s : String, isValidDateYYYYMMDD s = dateSpecCheck s) ∧
    isValidDateYYYYMMDD "2024-02-29" = true ∧
    isValidDateYYYYMMDD "2023-02-29" = false :=
  ⟨fun s => isValidDateChars_eq_dateSpecChars s.data, rfl, rfl⟩

end Pay
